import Mathlib

set_option maxHeartbeats 1000000
set_option linter.unusedVariables false

/-! Shallow embedding of the distance-vector (RIP-style) routing simulator
    implemented by `AsyncRouter` / `AsyncNetwork` in `Lab Works/Lab 8/main.py`.

    Times are modelled as naturals; the Python `float('inf')` unreachable
    cost is the `Cost.inf` constructor; Python dictionaries whose iteration
    order matters are modelled as association lists (insertion order),
    and dictionaries only ever accessed pointwise (`hold_down_routes`,
    `distance_vector`) as functions into `Option`. -/

abbrev Time := Nat

/-- Route cost: a finite integer cost or the unreachable value `inf`
    (Python `math.inf`). -/
inductive Cost where
  | fin (n : Nat)
  | inf
deriving DecidableEq, Repr

/-- Python `<` on costs: any finite value is below `inf`, `inf` is below
    nothing. -/
def Cost.ltB : Cost → Cost → Bool
  | Cost.fin a, Cost.fin b => a < b
  | Cost.fin _, Cost.inf => true
  | Cost.inf, _ => false

inductive RouteStatus where
  | VALID
  | INVALID
  | GARBAGE
deriving DecidableEq, Repr

inductive LinkStatus where
  | UP
  | DOWN
deriving DecidableEq, Repr

inductive ConvergenceState where
  | CONVERGING
  | CONVERGED
  | DIVERGING
deriving DecidableEq, Repr

/-- The `RIPTimers` constants from the source. -/
def ROUTE_TIMEOUT : Time := 90

def GARBAGE_COLLECTION : Time := 60

def HOLD_DOWN : Time := 90

structure Link where
  router1 : String
  router2 : String
  cost : Nat
  status : LinkStatus := LinkStatus.UP
deriving DecidableEq, Repr

/-- `Link.is_operational`. -/
def Link.is_operational (l : Link) : Bool := l.status = LinkStatus.UP

/-- A row of a routing table (`RouteEntry` dataclass). -/
structure RouteEntry where
  destination : String
  cost : Cost
  next_hop : Option String
  status : RouteStatus
  last_update_time : Time
  timeout_time : Time
  garbage_time : Time
deriving DecidableEq, Repr

/-- `RouteEntry.__post_init__`: a freshly constructed entry records the
    construction time and zeroed timers. -/
def mkRouteEntry (dest : String) (cost : Cost) (nh : Option String)
    (st : RouteStatus) (now : Time) : RouteEntry :=
  { destination := dest, cost := cost, next_hop := nh, status := st,
    last_update_time := now, timeout_time := 0, garbage_time := 0 }

/-- Association-list lookup (Python `dict` read). -/
def lookupA {α : Type} : List (String × α) → String → Option α
  | [], _ => none
  | (k, v) :: t, d => if k = d then some v else lookupA t d

/-- Association-list write (Python `dict` assignment: replace in place if the
    key exists, append otherwise). -/
def setA {α : Type} : List (String × α) → String → α → List (String × α)
  | [], d, e => [(d, e)]
  | (k, v) :: t, d, e => if k = d then (d, e) :: t else (k, v) :: setA t d e

abbrev Table := List (String × RouteEntry)

/-- The mutable per-router state touched by the routing operations:
    `routing_table`, `hold_down_routes` and `distance_vector`. -/
structure RouterState where
  table : Table
  holdDown : String → Option Time
  dvec : String → Option Cost

def emptyRouterState : RouterState :=
  { table := [], holdDown := fun _ => none, dvec := fun _ => none }

structure Message where
  source : String
  destination : String
  distance_vector : List (String × Cost)

/-- `new_cost = inf if neighbor_cost_to_dest == inf else neighbor_cost +
    neighbor_cost_to_dest` (line 967). -/
def computeNewCost (ncost : Nat) : Cost → Cost
  | Cost.inf => Cost.inf
  | Cost.fin a => Cost.fin (ncost + a)

/-- One iteration of the `for dest, neighbor_cost_to_dest in
    received_vector.items()` loop of `update_routing_table`
    (lines 963-1016). -/
def processDest (selfId fromN : String) (ncost : Nat) (now : Time)
    (st : RouterState × Bool) (dv : String × Cost) : RouterState × Bool :=
  let s := st.1
  let upd := st.2
  let dest := dv.1
  let adv := dv.2
  if dest = selfId then st
  else
    let newCost := computeNewCost ncost adv
    let te : Table × RouteEntry :=
      match lookupA s.table dest with
      | some e => (s.table, e)
      | none =>
        let e := mkRouteEntry dest Cost.inf none RouteStatus.INVALID now
        (setA s.table dest e, e)
    let tbl := te.1
    let entry := te.2
    if entry.next_hop = some fromN then
      if newCost ≠ entry.cost then
        if newCost = Cost.inf then
          let e' := { entry with
            cost := newCost,
            last_update_time := now,
            timeout_time := now + ROUTE_TIMEOUT,
            status := RouteStatus.INVALID,
            garbage_time := now + GARBAGE_COLLECTION }
          ({ table := setA tbl dest e',
             holdDown := fun x => if x = dest then some (now + HOLD_DOWN) else s.holdDown x,
             dvec := fun x => if x = dest then some e'.cost else s.dvec x }, true)
        else
          let e' := { entry with
            cost := newCost,
            last_update_time := now,
            timeout_time := now + ROUTE_TIMEOUT,
            status := RouteStatus.VALID,
            garbage_time := 0 }
          ({ table := setA tbl dest e',
             holdDown := s.holdDown,
             dvec := fun x => if x = dest then some e'.cost else s.dvec x }, true)
      else ({ s with table := tbl }, upd)
    else if Cost.ltB newCost entry.cost = true ∧ newCost ≠ Cost.inf then
      match s.holdDown dest with
      | none =>
        let e' := { entry with
          cost := newCost,
          next_hop := some fromN,
          status := RouteStatus.VALID,
          last_update_time := now,
          timeout_time := now + ROUTE_TIMEOUT,
          garbage_time := 0 }
        ({ table := setA tbl dest e',
           holdDown := s.holdDown,
           dvec := fun x => if x = dest then some e'.cost else s.dvec x }, true)
      | some _ => ({ s with table := tbl }, upd)
    else ({ s with table := tbl }, upd)

/-- Lines 959-961: the sender's own row is unconditionally refreshed before
    the vector loop. -/
def refreshNeighborRow (s : RouterState) (fromN : String) (now : Time) : RouterState :=
  match lookupA s.table fromN with
  | some e =>
    let e' := { e with
      last_update_time := now,
      timeout_time := now + ROUTE_TIMEOUT }
    { s with table := setA s.table fromN e' }
  | none => s

/-- `AsyncRouter.update_routing_table` (lines 950-1018), with the
    network-statistics side effects elided. -/
def update_routing_table (selfId : String) (nbrs : List (String × Link))
    (s : RouterState) (fromN : String) (vec : List (String × Cost))
    (now : Time) : RouterState × Bool :=
  match lookupA nbrs fromN with
  | none => (s, false)
  | some link =>
    let s1 := refreshNeighborRow s fromN now
    vec.foldl (processDest selfId fromN link.cost now) (s1, false)

/-- `AsyncRouter.process_message` (lines 935-948): drop messages from
    non-neighbors or across non-operational links. -/
def process_message (selfId : String) (nbrs : List (String × Link))
    (s : RouterState) (msg : Message) (now : Time) : RouterState × Bool :=
  match lookupA nbrs msg.source with
  | none => (s, false)
  | some link =>
    if link.status = LinkStatus.UP then
      update_routing_table selfId nbrs s msg.source msg.distance_vector now
    else (s, false)

/-- One iteration of the `check_timeouts` sweep (lines 1048-1075), acting on
    the snapshot item `(dest, entry)` of the table. -/
def sweepStep (selfId : String) (now : Time) (st : RouterState × Bool)
    (it : String × RouteEntry) : RouterState × Bool :=
  let s := st.1
  let dest := it.1
  let entry := it.2
  if dest = selfId then st
  else if entry.status = RouteStatus.VALID ∧ entry.timeout_time > 0 ∧
          now > entry.timeout_time then
    let e' := { entry with
      status := RouteStatus.INVALID,
      cost := Cost.inf,
      garbage_time := now + GARBAGE_COLLECTION }
    ({ table := setA s.table dest e',
       holdDown := fun x => if x = dest then some (now + HOLD_DOWN) else s.holdDown x,
       dvec := fun x => if x = dest then some Cost.inf else s.dvec x }, true)
  else if entry.status = RouteStatus.INVALID ∧ entry.garbage_time > 0 ∧
          now > entry.garbage_time then
    let e' := { entry with status := RouteStatus.GARBAGE }
    ({ s with table := setA s.table dest e' }, true)
  else st

/-- `AsyncRouter.check_timeouts` (lines 1044-1088), triggered-update and
    statistics side effects elided.  The boolean is `routes_changed`. -/
def check_timeouts (selfId : String) (s : RouterState) (now : Time) :
    RouterState × Bool :=
  s.table.foldl (sweepStep selfId now) (s, false)

/-- One iteration of the `handle_link_failure` loop (lines 1098-1105). -/
def failStep (selfId neighborId : String) (now : Time)
    (st : RouterState × Bool) (it : String × RouteEntry) : RouterState × Bool :=
  let s := st.1
  let dest := it.1
  let entry := it.2
  if entry.next_hop = some neighborId ∧ dest ≠ selfId then
    let e' := { entry with
      cost := Cost.inf,
      status := RouteStatus.INVALID,
      garbage_time := now + GARBAGE_COLLECTION }
    ({ table := setA s.table dest e',
       holdDown := fun x => if x = dest then some (now + HOLD_DOWN) else s.holdDown x,
       dvec := fun x => if x = dest then some Cost.inf else s.dvec x }, true)
  else st

/-- `AsyncRouter.handle_link_failure` (lines 1090-1118). -/
def handle_link_failure (selfId : String) (nbrs : List (String × Link))
    (s : RouterState) (neighborId : String) (now : Time) : RouterState × Bool :=
  match lookupA nbrs neighborId with
  | none => (s, false)
  | some _ => s.table.foldl (failStep selfId neighborId now) (s, false)

/-- `AsyncRouter.handle_link_recovery` (lines 1120-1146). -/
def handle_link_recovery (selfId : String) (nbrs : List (String × Link))
    (s : RouterState) (neighborId : String) (newCost : Nat) (now : Time) :
    RouterState × Bool :=
  match lookupA nbrs neighborId with
  | none => (s, false)
  | some _ =>
    match lookupA s.table neighborId with
    | some e =>
      let e' := { e with
        cost := Cost.fin newCost,
        next_hop := some neighborId,
        status := RouteStatus.VALID,
        last_update_time := now,
        timeout_time := now + ROUTE_TIMEOUT }
      ({ table := setA s.table neighborId e',
         holdDown := s.holdDown,
         dvec := fun x => if x = neighborId then some (Cost.fin newCost) else s.dvec x }, true)
    | none => (s, false)
  -- the `selfId` argument mirrors the method receiver; unused in the body
  -- (the source method reads only `self.neighbors` / `self.routing_table`).

/-- The entry written by the first loop of `initialize_routing_table`
    (lines 827-843). -/
def initEntry (selfId dest : String) (now : Time) : RouteEntry :=
  if dest = selfId then
    mkRouteEntry dest (Cost.fin 0) (some selfId) RouteStatus.VALID now
  else
    mkRouteEntry dest Cost.inf none RouteStatus.INVALID now

/-- One iteration of the first loop of `initialize_routing_table`. -/
def initStep (selfId : String) (now : Time) (s : RouterState) (dest : String) :
    RouterState :=
  let e := initEntry selfId dest now
  { table := setA s.table dest e,
    holdDown := s.holdDown,
    dvec := fun x => if x = dest then some e.cost else s.dvec x }

/-- One iteration of the neighbor-overwrite loop of
    `initialize_routing_table` (lines 845-852).  Note that `timeout_time`
    is not written. -/
def initNbrStep (now : Time) (s : RouterState) (nl : String × Link) :
    RouterState :=
  let nid := nl.1
  let link := nl.2
  if link.status = LinkStatus.UP then
    match lookupA s.table nid with
    | some e =>
      let e' := { e with
        cost := Cost.fin link.cost,
        next_hop := some nid,
        status := RouteStatus.VALID,
        last_update_time := now }
      { table := setA s.table nid e',
        holdDown := s.holdDown,
        dvec := fun x => if x = nid then some (Cost.fin link.cost) else s.dvec x }
    | none => s
  else s

/-- `AsyncRouter.initialize_routing_table` (lines 825-852). -/
def initialize_routing_table (selfId : String) (allRouters : List String)
    (nbrs : List (String × Link)) (s : RouterState) (now : Time) : RouterState :=
  nbrs.foldl (initNbrStep now) (allRouters.foldl (initStep selfId now) s)

/-- Result of `get_distance_vector_for_neighbor`: the advertised vector, the
    poison-reversed destinations, and the hold-down map after expired
    entries were dropped. -/
structure DVResult where
  vector : List (String × Cost)
  poison : List String
  holdDown : String → Option Time

/-- One iteration of the loop of `get_distance_vector_for_neighbor`
    (lines 862-880).  The poison-reverse check precedes the hold-down
    check, as in the source. -/
def dvStep (selfId nid : String) (now : Time) (acc : DVResult)
    (it : String × RouteEntry) : DVResult :=
  let dest := it.1
  let entry := it.2
  if entry.status = RouteStatus.GARBAGE then acc
  else
    let pc : Cost × List String :=
      if entry.next_hop = some nid ∧ dest ≠ selfId then
        (Cost.inf, acc.poison ++ [dest])
      else (entry.cost, acc.poison)
    match acc.holdDown dest with
    | some expiry =>
      if now < expiry then { acc with poison := pc.2 }
      else { vector := acc.vector ++ [(dest, pc.1)], poison := pc.2,
             holdDown := fun x => if x = dest then none else acc.holdDown x }
    | none =>
      { vector := acc.vector ++ [(dest, pc.1)], poison := pc.2,
        holdDown := acc.holdDown }

/-- `AsyncRouter.get_distance_vector_for_neighbor` (lines 854-882). -/
def get_distance_vector_for_neighbor (selfId : String) (s : RouterState)
    (nid : String) (now : Time) : DVResult :=
  s.table.foldl (dvStep selfId nid now) ⟨[], [], s.holdDown⟩

/-- `NetworkStats` dataclass with its default field values. -/
structure NetworkStats where
  last_route_change_time : Time := 0
  total_route_changes : Nat := 0
  total_messages : Nat := 0
  poison_reverse_messages : Nat := 0
  convergence_state : ConvergenceState := ConvergenceState.CONVERGING
  convergence_detected_at : Time := 0
  periodic_updates_enabled : Bool := true
deriving DecidableEq, Repr

/-- The piece of `AsyncNetwork` state the network-level claims need:
    router ids, per-router states, the shared links, and the stats. -/
structure Network where
  routerIds : List String
  routerStates : List (String × RouterState)
  links : List Link
  stats : NetworkStats

/-- A router's `neighbors` map, derived from the shared link store exactly
    as `_load_json_topology` builds it (both orientations of each link are
    inserted; the key whose first component matches becomes a neighbor). -/
def neighborsOf (links : List Link) (rid : String) : List (String × Link) :=
  links.filterMap (fun l =>
    if l.router1 = rid then some (l.router2, l)
    else if l.router2 = rid then some (l.router1, l) else none)

/-- `AsyncNetwork.initialize_routing_tables` (lines 1255-1258). -/
def initialize_routing_tables (net : Network) (now : Time) : Network :=
  { net with routerStates := net.routerStates.map (fun rs =>
      (rs.1, initialize_routing_table rs.1 net.routerIds
               (neighborsOf net.links rs.1) rs.2 now)) }

/-- `AsyncNetwork.restart_simulation` (lines 1444-1454): reset the stats,
    re-initialize all routing tables (with the links still in their current
    state), and only then force every link UP. -/
def restart_simulation (net : Network) (now : Time) : Network :=
  let stats : NetworkStats := { periodic_updates_enabled := true }
  let net1 := initialize_routing_tables { net with stats := stats } now
  { net1 with links := net1.links.map (fun l => { l with status := LinkStatus.UP }) }

/-- The self-route invariant of claim C8: the router's own row reads
    `cost = 0, next_hop = self, status = VALID`. -/
def SelfOK (s : RouterState) (selfId : String) : Prop :=
  match lookupA s.table selfId with
  | some e => e.cost = Cost.fin 0 ∧ e.next_hop = some selfId ∧
              e.status = RouteStatus.VALID
  | none => False

/-- A destination/advertised-cost pair is *quiet* in a router state when the
    `update_routing_table` loop body leaves the state untouched and does not
    mark a route change: either the destination is the router itself, or its
    entry exists and (same next hop with an unchanged computed cost, or a
    different next hop whose better-route branch does not fire). -/
def QuietAt (selfId fromN : String) (ncost : Nat) (s : RouterState)
    (d : String) (adv : Cost) : Prop :=
  d = selfId ∨ ∃ e, lookupA s.table d = some e ∧
    ((e.next_hop = some fromN ∧ computeNewCost ncost adv = e.cost) ∨
     (e.next_hop ≠ some fromN ∧
       (¬(Cost.ltB (computeNewCost ncost adv) e.cost = true ∧
          computeNewCost ncost adv ≠ Cost.inf) ∨ s.holdDown d ≠ none)))

/-! ### Association-list lemmas -/

theorem lookupA_setA {α : Type} (t : List (String × α)) (k d : String) (e : α) :
    lookupA (setA t k e) d = if k = d then some e else lookupA t d := by
  induction t with
  | nil => simp [setA, lookupA]
  | cons p t ih =>
    obtain ⟨a, b⟩ := p
    by_cases hak : a = k
    · subst hak
      simp only [setA, if_pos rfl, lookupA]
      by_cases had : a = d
      · simp [had]
      · simp [had]
    · simp only [setA, if_neg hak, lookupA]
      by_cases had : a = d
      · subst had
        have hka : ¬ k = a := fun h => hak h.symm
        simp [if_pos rfl, if_neg hka]
      · simp only [if_neg had]
        rw [ih]

theorem lookupA_append_some {α : Type} {t1 : List (String × α)} {d : String}
    {v : α} (t2 : List (String × α)) (h : lookupA t1 d = some v) :
    lookupA (t1 ++ t2) d = some v := by
  induction t1 with
  | nil => simp [lookupA] at h
  | cons p t ih =>
    obtain ⟨a, b⟩ := p
    simp only [lookupA, List.cons_append] at h ⊢
    by_cases had : a = d
    · simpa [had] using h
    · simp only [if_neg had] at h ⊢
      exact ih h

theorem lookupA_append_none {α : Type} {t1 : List (String × α)} {d : String}
    (t2 : List (String × α)) (h : lookupA t1 d = none) :
    lookupA (t1 ++ t2) d = lookupA t2 d := by
  induction t1 with
  | nil => simp
  | cons p t ih =>
    obtain ⟨a, b⟩ := p
    simp only [lookupA, List.cons_append] at h ⊢
    by_cases had : a = d
    · simp [had] at h
    · simp only [if_neg had] at h ⊢
      exact ih h

theorem lookupA_none_of_not_mem {α : Type} {t : List (String × α)} {d : String}
    (h : d ∉ t.map Prod.fst) : lookupA t d = none := by
  induction t with
  | nil => rfl
  | cons p t ih =>
    obtain ⟨a, b⟩ := p
    simp only [List.map_cons, List.mem_cons] at h
    push_neg at h
    simp only [lookupA, if_neg (fun hh : a = d => h.1 hh.symm)]
    exact ih h.2

theorem mem_keys_of_lookupA {α : Type} {t : List (String × α)} {d : String}
    {v : α} (h : lookupA t d = some v) : d ∈ t.map Prod.fst := by
  induction t with
  | nil => simp [lookupA] at h
  | cons p t ih =>
    obtain ⟨a, b⟩ := p
    simp only [lookupA] at h
    by_cases had : a = d
    · simp [had]
    · simp only [if_neg had] at h
      simp [ih h]

theorem lookupA_of_mem_nodup {α : Type} {t : List (String × α)} {d : String}
    {e : α} (hn : (t.map Prod.fst).Nodup) (hm : (d, e) ∈ t) :
    lookupA t d = some e := by
  induction t with
  | nil => simp at hm
  | cons p t ih =>
    obtain ⟨a, b⟩ := p
    simp only [List.map_cons, List.nodup_cons] at hn
    simp only [List.mem_cons] at hm
    rcases hm with hm | hm
    · injection hm with h1 h2
      subst h1
      subst h2
      simp [lookupA]
    · have hda : ¬ a = d := by
        intro h
        subst h
        exact hn.1 (List.mem_map.mpr ⟨(a, e), hm, rfl⟩)
      simp only [lookupA, if_neg hda]
      exact ih hn.2 hm

/-! ### Locality and quiescence of the `update_routing_table` loop body -/

theorem lookupA_setA_self {α : Type} (t : List (String × α)) (k : String) (e : α) :
    lookupA (setA t k e) k = some e := by
  rw [lookupA_setA]
  simp

theorem processDest_other (selfId fromN : String) (ncost : Nat) (now : Time)
    (st : RouterState × Bool) (dest : String) (adv : Cost) (d : String)
    (hd : ¬ dest = d) :
    lookupA ((processDest selfId fromN ncost now st (dest, adv)).1).table d
      = lookupA st.1.table d ∧
    ((processDest selfId fromN ncost now st (dest, adv)).1).holdDown d
      = st.1.holdDown d := by
  have hd2 : ¬ d = dest := fun h => hd h.symm
  unfold processDest
  dsimp only
  split
  · exact ⟨rfl, rfl⟩
  · cases hle : lookupA st.1.table dest with
    | some e =>
      simp only [hle]
      split
      · split
        · split
          · constructor <;> simp [lookupA_setA, hd, hd2]
          · constructor <;> simp [lookupA_setA, hd, hd2]
        · exact ⟨rfl, rfl⟩
      · split
        · cases hhd : st.1.holdDown dest with
          | none =>
            simp only [hhd]
            constructor <;> simp [lookupA_setA, hd, hd2]
          | some w => simp [hhd]
        · exact ⟨rfl, rfl⟩
    | none =>
      simp only [hle]
      split
      · split
        · split
          · constructor <;> simp [lookupA_setA, hd, hd2]
          · constructor <;> simp [lookupA_setA, hd, hd2]
        · constructor <;> simp [lookupA_setA, hd, hd2]
      · split
        · cases hhd : st.1.holdDown dest with
          | none =>
            simp only [hhd]
            constructor <;> simp [lookupA_setA, hd, hd2]
          | some w =>
            simp only [hhd]
            constructor <;> simp [lookupA_setA, hd, hd2]
        · constructor <;> simp [lookupA_setA, hd, hd2]

theorem processDest_of_quiet (selfId fromN : String) (ncost : Nat) (now : Time)
    (s : RouterState) (b : Bool) (d : String) (adv : Cost)
    (hq : QuietAt selfId fromN ncost s d adv) :
    processDest selfId fromN ncost now (s, b) (d, adv) = (s, b) := by
  unfold processDest
  dsimp only
  rcases hq with hq | ⟨e, he, hcase⟩
  · simp [hq]
  · by_cases h1 : d = selfId
    · simp [h1]
    · rw [if_neg h1]
      simp only [he]
      rcases hcase with ⟨hnh, hc⟩ | ⟨hnh, hrest⟩
      · rw [if_pos hnh, if_neg (fun hne => hne hc)]
      · rw [if_neg hnh]
        rcases hrest with hlt | hhd
        · rw [if_neg hlt]
        · cases hhd2 : s.holdDown d with
          | none => exact absurd hhd2 hhd
          | some w =>
            split
            · simp only [hhd2]
            · rfl

theorem processDest_quiet (selfId fromN : String) (ncost : Nat) (now : Time)
    (st : RouterState × Bool) (d : String) (adv : Cost) :
    QuietAt selfId fromN ncost
      ((processDest selfId fromN ncost now st (d, adv)).1) d adv := by
  unfold processDest
  dsimp only
  by_cases h1 : d = selfId
  · rw [if_pos h1]
    exact Or.inl h1
  · rw [if_neg h1]
    cases hle : lookupA st.1.table d with
    | some e =>
      simp only [hle]
      by_cases hnh : e.next_hop = some fromN
      · rw [if_pos hnh]
        by_cases hc : computeNewCost ncost adv ≠ e.cost
        · rw [if_pos hc]
          by_cases hinf : computeNewCost ncost adv = Cost.inf
          · rw [if_pos hinf]
            refine Or.inr ⟨_, lookupA_setA_self _ _ _, Or.inl ⟨hnh, rfl⟩⟩
          · rw [if_neg hinf]
            refine Or.inr ⟨_, lookupA_setA_self _ _ _, Or.inl ⟨hnh, rfl⟩⟩
        · rw [if_neg hc]
          push_neg at hc
          exact Or.inr ⟨e, hle, Or.inl ⟨hnh, hc⟩⟩
      · rw [if_neg hnh]
        by_cases hlt : Cost.ltB (computeNewCost ncost adv) e.cost = true ∧
            computeNewCost ncost adv ≠ Cost.inf
        · rw [if_pos hlt]
          cases hhd : st.1.holdDown d with
          | none =>
            simp only [hhd]
            refine Or.inr ⟨_, lookupA_setA_self _ _ _, Or.inl ⟨rfl, rfl⟩⟩
          | some w =>
            simp only [hhd]
            exact Or.inr ⟨e, hle, Or.inr ⟨hnh, Or.inr (by simp [hhd])⟩⟩
        · rw [if_neg hlt]
          exact Or.inr ⟨e, hle, Or.inr ⟨hnh, Or.inl hlt⟩⟩
    | none =>
      simp only [hle]
      have hnh0 : (mkRouteEntry d Cost.inf none RouteStatus.INVALID now).next_hop
          ≠ some fromN := by simp [mkRouteEntry]
      rw [if_neg hnh0]
      by_cases hlt : Cost.ltB (computeNewCost ncost adv)
          (mkRouteEntry d Cost.inf none RouteStatus.INVALID now).cost = true ∧
          computeNewCost ncost adv ≠ Cost.inf
      · rw [if_pos hlt]
        cases hhd : st.1.holdDown d with
        | none =>
          simp only [hhd]
          refine Or.inr ⟨_, lookupA_setA_self _ _ _, Or.inl ⟨rfl, rfl⟩⟩
        | some w =>
          simp only [hhd]
          refine Or.inr ⟨_, lookupA_setA_self _ _ _, Or.inr ⟨hnh0, Or.inr (by simp [hhd])⟩⟩
      · rw [if_neg hlt]
        refine Or.inr ⟨_, lookupA_setA_self _ _ _, Or.inr ⟨hnh0, Or.inl ?_⟩⟩
        exact hlt

theorem quiet_congr (selfId fromN : String) (ncost : Nat) {s s' : RouterState}
    (d : String) (adv : Cost)
    (ht : lookupA s'.table d = lookupA s.table d)
    (hh : s'.holdDown d = s.holdDown d)
    (hq : QuietAt selfId fromN ncost s d adv) :
    QuietAt selfId fromN ncost s' d adv := by
  rcases hq with h | ⟨e, he, hc⟩
  · exact Or.inl h
  · refine Or.inr ⟨e, ht.trans he, ?_⟩
    rcases hc with hc | ⟨hnh, hr⟩
    · exact Or.inl hc
    · refine Or.inr ⟨hnh, ?_⟩
      rcases hr with hr | hr
      · exact Or.inl hr
      · exact Or.inr (by rw [hh]; exact hr)

theorem foldPD_other (selfId fromN : String) (ncost : Nat) (now : Time)
    (v : List (String × Cost)) (st : RouterState × Bool) (d : String)
    (hd : d ∉ v.map Prod.fst) :
    lookupA ((v.foldl (processDest selfId fromN ncost now) st).1).table d
      = lookupA st.1.table d ∧
    ((v.foldl (processDest selfId fromN ncost now) st).1).holdDown d
      = st.1.holdDown d := by
  induction v generalizing st with
  | nil => exact ⟨rfl, rfl⟩
  | cons p v ih =>
    obtain ⟨dest, adv⟩ := p
    simp only [List.map_cons, List.mem_cons] at hd
    push_neg at hd
    simp only [List.foldl_cons]
    have h1 := processDest_other selfId fromN ncost now st dest adv d
      (fun h => hd.1 h.symm)
    have h2 := ih (processDest selfId fromN ncost now st (dest, adv)) hd.2
    exact ⟨h2.1.trans h1.1, h2.2.trans h1.2⟩

theorem foldPD_quiet (selfId fromN : String) (ncost : Nat) (now : Time)
    (v : List (String × Cost)) (hn : (v.map Prod.fst).Nodup)
    (st : RouterState × Bool) (d : String) (adv : Cost) (hm : (d, adv) ∈ v) :
    QuietAt selfId fromN ncost
      ((v.foldl (processDest selfId fromN ncost now) st).1) d adv := by
  induction v generalizing st with
  | nil => simp at hm
  | cons p v ih =>
    simp only [List.map_cons, List.nodup_cons] at hn
    simp only [List.foldl_cons]
    rcases List.mem_cons.mp hm with heq | hm2
    · have hq := processDest_quiet selfId fromN ncost now st d adv
      have hdm : d ∉ v.map Prod.fst := by
        have := hn.1
        rw [← heq] at this
        exact this
      have hother := foldPD_other selfId fromN ncost now v
        (processDest selfId fromN ncost now st (d, adv)) d hdm
      rw [← heq]
      exact quiet_congr selfId fromN ncost d adv hother.1 hother.2 hq
    · exact ih hn.2 _ hm2

theorem foldPD_noop (selfId fromN : String) (ncost : Nat) (now : Time)
    (v : List (String × Cost)) (s : RouterState) (b : Bool)
    (hq : ∀ p ∈ v, QuietAt selfId fromN ncost s p.1 p.2) :
    v.foldl (processDest selfId fromN ncost now) (s, b) = (s, b) := by
  induction v with
  | nil => rfl
  | cons p v ih =>
    obtain ⟨d, adv⟩ := p
    simp only [List.foldl_cons]
    rw [processDest_of_quiet selfId fromN ncost now s b d adv
      (hq (d, adv) (List.mem_cons_self _ _))]
    exact ih (fun p hp => hq p (List.mem_cons_of_mem _ hp))

theorem refresh_holdDown (s : RouterState) (n : String) (now : Time) :
    (refreshNeighborRow s n now).holdDown = s.holdDown := by
  unfold refreshNeighborRow
  cases h : lookupA s.table n <;> rfl

theorem refresh_lookup_ne (s : RouterState) (n : String) (now : Time)
    (d : String) (hd : ¬ n = d) :
    lookupA (refreshNeighborRow s n now).table d = lookupA s.table d := by
  unfold refreshNeighborRow
  cases h : lookupA s.table n with
  | none => rfl
  | some e => simp [lookupA_setA, hd]

theorem refresh_lookup_self (s : RouterState) (n : String) (now : Time) :
    lookupA (refreshNeighborRow s n now).table n =
      (lookupA s.table n).map (fun e => { e with
        last_update_time := now, timeout_time := now + ROUTE_TIMEOUT }) := by
  unfold refreshNeighborRow
  cases h : lookupA s.table n with
  | none => simp [h]
  | some e => simp [h, lookupA_setA]

theorem quiet_refresh (selfId fromN : String) (ncost : Nat) {s : RouterState}
    (n : String) (now : Time) (d : String) (adv : Cost)
    (hq : QuietAt selfId fromN ncost s d adv) :
    QuietAt selfId fromN ncost (refreshNeighborRow s n now) d adv := by
  by_cases hnd : n = d
  · subst hnd
    rcases hq with h | ⟨e, he, hc⟩
    · exact Or.inl h
    · refine Or.inr ⟨{ e with
        last_update_time := now, timeout_time := now + ROUTE_TIMEOUT }, ?_, ?_⟩
      · rw [refresh_lookup_self, he]
        rfl
      · rcases hc with ⟨h1, h2⟩ | ⟨h1, h2⟩
        · exact Or.inl ⟨h1, h2⟩
        · refine Or.inr ⟨h1, ?_⟩
          rcases h2 with h2 | h2
          · exact Or.inl h2
          · exact Or.inr (by rw [refresh_holdDown]; exact h2)
  · exact quiet_congr selfId fromN ncost d adv
      (refresh_lookup_ne s n now d hnd) (by rw [refresh_holdDown]) hq

theorem foldPD_localize (selfId fromN : String) (ncost : Nat) (now : Time)
    (v : List (String × Cost)) (hn : (v.map Prod.fst).Nodup)
    (st : RouterState × Bool) (d : String) (adv : Cost) (hm : (d, adv) ∈ v) :
    ∃ smid : RouterState, ∃ bmid : Bool,
      lookupA smid.table d = lookupA st.1.table d ∧
      smid.holdDown d = st.1.holdDown d ∧
      lookupA ((v.foldl (processDest selfId fromN ncost now) st).1).table d
        = lookupA ((processDest selfId fromN ncost now (smid, bmid) (d, adv)).1).table d ∧
      ((v.foldl (processDest selfId fromN ncost now) st).1).holdDown d
        = ((processDest selfId fromN ncost now (smid, bmid) (d, adv)).1).holdDown d := by
  induction v generalizing st with
  | nil => simp at hm
  | cons p v ih =>
    simp only [List.map_cons, List.nodup_cons] at hn
    simp only [List.foldl_cons]
    rcases List.mem_cons.mp hm with heq | hm2
    · refine ⟨st.1, st.2, rfl, rfl, ?_, ?_⟩
      · have hdm : d ∉ v.map Prod.fst := by
          have := hn.1
          rw [← heq] at this
          exact this
        have hother := foldPD_other selfId fromN ncost now v
          (processDest selfId fromN ncost now st (d, adv)) d hdm
        rw [← heq]
        exact hother.1
      · have hdm : d ∉ v.map Prod.fst := by
          have := hn.1
          rw [← heq] at this
          exact this
        have hother := foldPD_other selfId fromN ncost now v
          (processDest selfId fromN ncost now st (d, adv)) d hdm
        rw [← heq]
        exact hother.2
    · have hpd : ¬ p.1 = d := by
        intro h
        apply hn.1
        rw [h]
        exact List.mem_map.mpr ⟨(d, adv), hm2, rfl⟩
      obtain ⟨smid, bmid, h1, h2, h3, h4⟩ :=
        ih hn.2 (processDest selfId fromN ncost now st (p.1, p.2)) hm2
      have hstep := processDest_other selfId fromN ncost now st p.1 p.2 d hpd
      exact ⟨smid, bmid, h1.trans hstep.1, h2.trans hstep.2, h3, h4⟩

theorem processDest_same_nh (selfId fromN : String) (ncost : Nat) (now : Time)
    (s : RouterState) (b : Bool) (d : String) (adv : Cost) (e : RouteEntry)
    (hd : ¬ d = selfId) (he : lookupA s.table d = some e)
    (hnh : e.next_hop = some fromN) :
    (computeNewCost ncost adv ≠ e.cost →
      ∃ e2, lookupA ((processDest selfId fromN ncost now (s, b) (d, adv)).1).table d
          = some e2 ∧
        e2.last_update_time = now ∧ e2.timeout_time = now + ROUTE_TIMEOUT ∧
        e2.cost = computeNewCost ncost adv ∧ e2.next_hop = some fromN) ∧
    (computeNewCost ncost adv = e.cost →
      lookupA ((processDest selfId fromN ncost now (s, b) (d, adv)).1).table d
        = some e) := by
  unfold processDest
  dsimp only
  rw [if_neg hd]
  simp only [he]
  rw [if_pos hnh]
  constructor
  · intro hne
    rw [if_pos hne]
    by_cases hinf : computeNewCost ncost adv = Cost.inf
    · rw [if_pos hinf]
      exact ⟨_, lookupA_setA_self _ _ _, rfl, rfl, rfl, hnh⟩
    · rw [if_neg hinf]
      exact ⟨_, lookupA_setA_self _ _ _, rfl, rfl, rfl, hnh⟩
  · intro hceq
    rw [if_neg (fun hne => hne hceq)]
    exact he

theorem foldPD_no_adopt (selfId fromN : String) (ncost : Nat) (now : Time)
    (v : List (String × Cost)) (s : RouterState) (b : Bool) (d : String)
    (e : RouteEntry) (he : lookupA s.table d = some e)
    (hnh : e.next_hop ≠ some fromN) (hhd : s.holdDown d ≠ none) :
    ∃ e2, lookupA ((v.foldl (processDest selfId fromN ncost now) (s, b)).1).table d
        = some e2 ∧
      e2.cost = e.cost ∧ e2.next_hop = e.next_hop ∧ e2.status = e.status := by
  induction v generalizing s b with
  | nil => exact ⟨e, he, rfl, rfl, rfl⟩
  | cons p v ih =>
    obtain ⟨d2, a2⟩ := p
    simp only [List.foldl_cons]
    by_cases hdd : d2 = d
    · subst hdd
      have hq : QuietAt selfId fromN ncost s d2 a2 :=
        Or.inr ⟨e, he, Or.inr ⟨hnh, Or.inr hhd⟩⟩
      rw [processDest_of_quiet selfId fromN ncost now s b d2 a2 hq]
      exact ih s b he hhd
    · have hstep := processDest_other selfId fromN ncost now (s, b) d2 a2 d hdd
      have he' : lookupA ((processDest selfId fromN ncost now (s, b) (d2, a2)).1).table d
          = some e := hstep.1.trans he
      have hhd' : ((processDest selfId fromN ncost now (s, b) (d2, a2)).1).holdDown d
          ≠ none := by
        rw [hstep.2]
        exact hhd
      have := ih ((processDest selfId fromN ncost now (s, b) (d2, a2)).1)
        ((processDest selfId fromN ncost now (s, b) (d2, a2)).2) he' hhd'
      exact this

/-! ### Claim theorems -/

/-- Claim C9 (confirmed): `process_message` returns `false` and leaves the
    router state (routing table, distance vector, hold-down map) unchanged
    when the message's source is not a current neighbor or the link to the
    source is not operational. -/
theorem process_message_drop (selfId : String) (nbrs : List (String × Link))
    (s : RouterState) (msg : Message) (now : Time)
    (h : lookupA nbrs msg.source = none ∨
         ∃ link, lookupA nbrs msg.source = some link ∧
           link.status ≠ LinkStatus.UP) :
    process_message selfId nbrs s msg now = (s, false) := by
  unfold process_message
  rcases h with h | ⟨link, hl, hs⟩
  · simp only [h]
  · simp only [hl]
    rw [if_neg hs]

/-- Witness for C9: a message from the unknown source `"X"` is dropped with
    no state change. -/
theorem process_message_drop_witness :
    process_message "A" [] emptyRouterState
      { source := "X", destination := "A", distance_vector := [] }
      0 = (emptyRouterState, false) :=
  process_message_drop "A" [] emptyRouterState
    { source := "X", destination := "A", distance_vector := [] } 0 (Or.inl rfl)

/-- Claim C3 (counterexample): route-cost arithmetic does not saturate at
    16.  With link cost 10 and an advertised cost of 20 the computed new
    cost is 30, which is neither `inf` nor at most 15, and it is stored
    verbatim in the routing table. -/
theorem cost_not_clamped_cex :
    computeNewCost 10 (Cost.fin 20) = Cost.fin 30 ∧
    (lookupA ((update_routing_table "A"
        [("B", { router1 := "A", router2 := "B", cost := 10, status := LinkStatus.UP })]
        emptyRouterState "B" [("D", Cost.fin 20)] 0).1).table "D").map RouteEntry.cost
      = some (Cost.fin 30) ∧
    ¬ (30 ≤ 15) := by decide

/-- Claim C3 (amended, proved): cost arithmetic maps an advertised `inf` to
    `inf` and otherwise adds the link cost to the advertised cost exactly,
    with no clamp at 16; stored finite costs are therefore not confined to
    `[0, 15]`. -/
theorem computeNewCost_exact (ncost : Nat) :
    (∀ adv : Cost, (computeNewCost ncost adv = Cost.inf ↔ adv = Cost.inf)) ∧
    (∀ a : Nat, computeNewCost ncost (Cost.fin a) = Cost.fin (ncost + a)) := by
  constructor
  · intro adv
    cases adv <;> simp [computeNewCost]
  · intro a
    rfl

/-- Claim C7 (confirmed): applying the same advertisement twice in
    succession — a second `update_routing_table` call with the same
    neighbor and the same received vector on the state produced by the
    first call — returns `false` (no route change), for every router state
    and every vector (with distinct keys, as a Python dict has). -/
theorem update_routing_table_idempotent (selfId : String)
    (nbrs : List (String × Link)) (s : RouterState) (fromN : String)
    (v : List (String × Cost)) (now1 now2 : Time)
    (hn : (v.map Prod.fst).Nodup) :
    (update_routing_table selfId nbrs
      (update_routing_table selfId nbrs s fromN v now1).1
      fromN v now2).2 = false := by
  unfold update_routing_table
  cases hlk : lookupA nbrs fromN with
  | none => rfl
  | some link =>
    simp only [hlk]
    have hq : ∀ p ∈ v, QuietAt selfId fromN link.cost
        (refreshNeighborRow
          ((v.foldl (processDest selfId fromN link.cost now1)
            (refreshNeighborRow s fromN now1, false)).1) fromN now2) p.1 p.2 := by
      intro p hp
      apply quiet_refresh
      exact foldPD_quiet selfId fromN link.cost now1 v hn
        (refreshNeighborRow s fromN now1, false) p.1 p.2
        (by rw [Prod.mk.eta]; exact hp)
    rw [foldPD_noop selfId fromN link.cost now2 v _ false hq]

/-- Witness for C7 at a concrete input: router `"A"` learns `"C"` from
    `"B"`, and re-applying the same vector reports no change. -/
theorem update_routing_table_idempotent_witness :
    (([("C", Cost.fin 1)].map (Prod.fst (α := String) (β := Cost))).Nodup) ∧
    (update_routing_table "A"
      [("B", { router1 := "A", router2 := "B", cost := 2, status := LinkStatus.UP })]
      (update_routing_table "A"
        [("B", { router1 := "A", router2 := "B", cost := 2, status := LinkStatus.UP })]
        emptyRouterState "B" [("C", Cost.fin 1)] 5).1
      "B" [("C", Cost.fin 1)] 9).2 = false :=
  ⟨by decide, update_routing_table_idempotent "A"
    [("B", { router1 := "A", router2 := "B", cost := 2, status := LinkStatus.UP })]
    emptyRouterState "B" [("C", Cost.fin 1)] 5 9 (by decide)⟩

/-- Claim C1 (counterexample): with link cost 2 to neighbor `"B"` and an
    existing route to `"D"` via `"B"` at cost 5, receiving `"D" ↦ 3` from
    `"B"` (computed new cost 2+3 = 5, unchanged) leaves the entry's
    `last_update_time` and `timeout_time` untouched instead of refreshing
    them to `now` and `now + ROUTE_TIMEOUT`. -/
theorem same_nh_no_refresh_cex :
    lookupA ((update_routing_table "A"
        [("B", { router1 := "A", router2 := "B", cost := 2, status := LinkStatus.UP })]
        { table := [("D", mkRouteEntry "D" (Cost.fin 5) (some "B") RouteStatus.VALID 3)],
          holdDown := fun _ => none, dvec := fun _ => none }
        "B" [("D", Cost.fin 3)] 1000).1).table "D"
      = some (mkRouteEntry "D" (Cost.fin 5) (some "B") RouteStatus.VALID 3) ∧
    (mkRouteEntry "D" (Cost.fin 5) (some "B") RouteStatus.VALID 3).timeout_time = 0 ∧
    (mkRouteEntry "D" (Cost.fin 5) (some "B") RouteStatus.VALID 3).last_update_time = 3 ∧
    ¬ ((0 : Time) = 1000 + ROUTE_TIMEOUT) ∧ ¬ ((3 : Time) = 1000) := by decide

/-- Claim C1 (amended, proved): when router `self` processes a vector from
    neighbor `N`, a destination `D ≠ self` in the vector whose entry has
    `next_hop = N` is refreshed (`last_update_time = now`, `timeout_time =
    now + ROUTE_TIMEOUT`) only when the computed new cost differs from the
    entry's current cost; when the new cost is unchanged and `D ≠ N` the
    entry is left entirely untouched (the row for `N` itself is refreshed
    unconditionally before the loop). -/
theorem update_refresh_same_nh (selfId : String) (nbrs : List (String × Link))
    (s : RouterState) (fromN : String) (v : List (String × Cost)) (now : Time)
    (link : Link) (hlk : lookupA nbrs fromN = some link)
    (hn : (v.map Prod.fst).Nodup) (d : String) (adv : Cost)
    (hm : (d, adv) ∈ v) (hds : ¬ d = selfId) (e : RouteEntry)
    (he : lookupA s.table d = some e) (hnh : e.next_hop = some fromN) :
    (computeNewCost link.cost adv ≠ e.cost →
      ∃ e2, lookupA ((update_routing_table selfId nbrs s fromN v now).1).table d
          = some e2 ∧
        e2.last_update_time = now ∧ e2.timeout_time = now + ROUTE_TIMEOUT) ∧
    (computeNewCost link.cost adv = e.cost → ¬ d = fromN →
      lookupA ((update_routing_table selfId nbrs s fromN v now).1).table d
        = some e) := by
  unfold update_routing_table
  simp only [hlk]
  obtain ⟨smid, bmid, h1, h2, h3, h4⟩ :=
    foldPD_localize selfId fromN link.cost now v hn
      (refreshNeighborRow s fromN now, false) d adv hm
  by_cases hdf : d = fromN
  · subst hdf
    have he1 : lookupA smid.table d = some { e with
        last_update_time := now, timeout_time := now + ROUTE_TIMEOUT } := by
      rw [h1, refresh_lookup_self, he]
      rfl
    have hp := processDest_same_nh selfId d link.cost now smid bmid d adv
      { e with last_update_time := now, timeout_time := now + ROUTE_TIMEOUT }
      hds he1 hnh
    constructor
    · intro hne
      obtain ⟨e2, hle2, hlu, hto, _, _⟩ := hp.1 hne
      exact ⟨e2, by rw [h3]; exact hle2, hlu, hto⟩
    · intro _ hdf2
      exact absurd rfl hdf2
  · have he1 : lookupA smid.table d = some e := by
      rw [h1, refresh_lookup_ne s fromN now d (fun h => hdf h.symm)]
      exact he
    have hp := processDest_same_nh selfId fromN link.cost now smid bmid d adv e
      hds he1 hnh
    constructor
    · intro hne
      obtain ⟨e2, hle2, hlu, hto, _, _⟩ := hp.1 hne
      exact ⟨e2, by rw [h3]; exact hle2, hlu, hto⟩
    · intro hceq _
      rw [h3]
      exact hp.2 hceq

/-- Witness for the amended C1: with link cost 2 and an advertised cost 4
    to `"D"` (new cost 6 ≠ 5), the entry is refreshed to the processing
    time. -/
theorem update_refresh_same_nh_witness :
    ∃ e2, lookupA ((update_routing_table "A"
        [("B", { router1 := "A", router2 := "B", cost := 2, status := LinkStatus.UP })]
        { table := [("D", mkRouteEntry "D" (Cost.fin 5) (some "B") RouteStatus.VALID 3)],
          holdDown := fun _ => none, dvec := fun _ => none }
        "B" [("D", Cost.fin 4)] 1000).1).table "D" = some e2 ∧
      e2.last_update_time = 1000 ∧ e2.timeout_time = 1000 + ROUTE_TIMEOUT :=
  (update_refresh_same_nh "A"
    [("B", { router1 := "A", router2 := "B", cost := 2, status := LinkStatus.UP })]
    { table := [("D", mkRouteEntry "D" (Cost.fin 5) (some "B") RouteStatus.VALID 3)],
      holdDown := fun _ => none, dvec := fun _ => none }
    "B" [("D", Cost.fin 4)] 1000 _ rfl (by decide) "D" (Cost.fin 4)
    (by decide) (by decide) (mkRouteEntry "D" (Cost.fin 5) (some "B") RouteStatus.VALID 3)
    rfl rfl).1 (by decide)

/-- Claim C6 (confirmed): while a destination is in the hold-down map,
    `update_routing_table` never adopts a route from a neighbor different
    from the entry's current next hop — the entry's cost, next hop and
    status are unchanged, for every received vector (in particular one
    offering a strictly smaller finite cost). -/
theorem update_holddown_no_adopt (selfId : String) (nbrs : List (String × Link))
    (s : RouterState) (fromN : String) (v : List (String × Cost)) (now : Time)
    (d : String) (e : RouteEntry) (he : lookupA s.table d = some e)
    (hnh : e.next_hop ≠ some fromN) (hhd : s.holdDown d ≠ none) :
    ∃ e2, lookupA ((update_routing_table selfId nbrs s fromN v now).1).table d
        = some e2 ∧
      e2.cost = e.cost ∧ e2.next_hop = e.next_hop ∧ e2.status = e.status := by
  unfold update_routing_table
  cases hlk : lookupA nbrs fromN with
  | none => exact ⟨e, he, rfl, rfl, rfl⟩
  | some link =>
    simp only [hlk]
    by_cases hdf : d = fromN
    · subst hdf
      have hre : lookupA (refreshNeighborRow s d now).table d = some { e with
          last_update_time := now, timeout_time := now + ROUTE_TIMEOUT } := by
        rw [refresh_lookup_self, he]
        rfl
      have hhd' : (refreshNeighborRow s d now).holdDown d ≠ none := by
        rw [refresh_holdDown]
        exact hhd
      obtain ⟨e2, hl2, hc2, hn2, hs2⟩ := foldPD_no_adopt selfId d link.cost now v
        (refreshNeighborRow s d now) false d
        { e with last_update_time := now, timeout_time := now + ROUTE_TIMEOUT }
        hre hnh hhd'
      exact ⟨e2, hl2, hc2, hn2, hs2⟩
    · have hre : lookupA (refreshNeighborRow s fromN now).table d = some e := by
        rw [refresh_lookup_ne s fromN now d (fun h => hdf h.symm)]
        exact he
      have hhd' : (refreshNeighborRow s fromN now).holdDown d ≠ none := by
        rw [refresh_holdDown]
        exact hhd
      exact foldPD_no_adopt selfId fromN link.cost now v
        (refreshNeighborRow s fromN now) false d e hre hnh hhd'

/-- Witness for C6: `"C"`-routed destination `"D"` in hold-down is not
    adopted from `"B"` even at a strictly smaller finite cost. -/
theorem update_holddown_no_adopt_witness :
    ∃ e2, lookupA ((update_routing_table "A"
        [("B", { router1 := "A", router2 := "B", cost := 1, status := LinkStatus.UP })]
        { table := [("D", mkRouteEntry "D" (Cost.fin 5) (some "C") RouteStatus.VALID 3)],
          holdDown := fun x => if x = "D" then some 500 else none,
          dvec := fun _ => none }
        "B" [("D", Cost.fin 1)] 100).1).table "D" = some e2 ∧
      e2.cost = Cost.fin 5 ∧ e2.next_hop = some "C" ∧ e2.status = RouteStatus.VALID :=
  update_holddown_no_adopt "A"
    [("B", { router1 := "A", router2 := "B", cost := 1, status := LinkStatus.UP })]
    { table := [("D", mkRouteEntry "D" (Cost.fin 5) (some "C") RouteStatus.VALID 3)],
      holdDown := fun x => if x = "D" then some 500 else none,
      dvec := fun _ => none }
    "B" [("D", Cost.fin 1)] 100 "D"
    (mkRouteEntry "D" (Cost.fin 5) (some "C") RouteStatus.VALID 3)
    rfl (by decide) (by decide)

/-! ### Initialization lemmas -/

theorem initStep_lookup_other (selfId : String) (now : Time) (s : RouterState)
    (dest d : String) (hd : ¬ dest = d) :
    lookupA (initStep selfId now s dest).table d = lookupA s.table d := by
  unfold initStep
  simp [lookupA_setA, hd]

theorem initFold_lookup_not_mem (selfId : String) (now : Time)
    (l : List String) (s : RouterState) (d : String) (hd : d ∉ l) :
    lookupA ((l.foldl (initStep selfId now) s)).table d = lookupA s.table d := by
  induction l generalizing s with
  | nil => rfl
  | cons h t ih =>
    simp only [List.mem_cons] at hd
    push_neg at hd
    simp only [List.foldl_cons]
    rw [ih _ hd.2, initStep_lookup_other selfId now s h d (fun hh => hd.1 hh.symm)]

theorem initFold_lookup_mem (selfId : String) (now : Time)
    (l : List String) (s : RouterState) (d : String) (hd : d ∈ l) :
    lookupA ((l.foldl (initStep selfId now) s)).table d
      = some (initEntry selfId d now) := by
  induction l generalizing s with
  | nil => simp at hd
  | cons h t ih =>
    simp only [List.foldl_cons]
    by_cases hdt : d ∈ t
    · exact ih _ hdt
    · have hdh : d = h := by
        rcases List.mem_cons.mp hd with h1 | h1
        · exact h1
        · exact absurd h1 hdt
      subst hdh
      rw [initFold_lookup_not_mem selfId now t _ d hdt]
      unfold initStep
      exact lookupA_setA_self _ _ _

theorem initNbrStep_lookup_other (now : Time) (s : RouterState)
    (nl : String × Link) (d : String) (hd : ¬ nl.1 = d) :
    lookupA (initNbrStep now s nl).table d = lookupA s.table d := by
  unfold initNbrStep
  dsimp only
  split
  · cases h : lookupA s.table nl.1 with
    | some e =>
      simp only [h]
      simp [lookupA_setA, hd]
    | none => simp [h]
  · rfl

theorem nbrFold_lookup_not_mem (now : Time) (l : List (String × Link))
    (s : RouterState) (d : String) (hd : d ∉ l.map Prod.fst) :
    lookupA ((l.foldl (initNbrStep now) s)).table d = lookupA s.table d := by
  induction l generalizing s with
  | nil => rfl
  | cons p t ih =>
    simp only [List.map_cons, List.mem_cons] at hd
    push_neg at hd
    simp only [List.foldl_cons]
    rw [ih _ hd.2, initNbrStep_lookup_other now s p d (fun hh => hd.1 hh.symm)]

theorem initNbrStep_lookup_self (now : Time) (s : RouterState) (N : String)
    (link : Link) (hup : link.status = LinkStatus.UP) (e : RouteEntry)
    (he : lookupA s.table N = some e) :
    lookupA (initNbrStep now s (N, link)).table N = some { e with
      cost := Cost.fin link.cost, next_hop := some N,
      status := RouteStatus.VALID, last_update_time := now } := by
  unfold initNbrStep
  dsimp only
  rw [if_pos hup]
  simp only [he]
  exact lookupA_setA_self _ _ _

theorem initEntry_timeout (selfId d : String) (now : Time) :
    (initEntry selfId d now).timeout_time = 0 := by
  unfold initEntry mkRouteEntry
  split <;> rfl

theorem initEntry_last_update (selfId d : String) (now : Time) :
    (initEntry selfId d now).last_update_time = now := by
  unfold initEntry mkRouteEntry
  split <;> rfl

/-- Claim C4 (counterexample): `initialize_routing_table` leaves
    `timeout_time` at 0 for an operational neighbor's entry instead of
    setting `now + ROUTE_TIMEOUT`. -/
theorem init_timeout_cex :
    (lookupA (initialize_routing_table "A" ["A", "B"]
        [("B", { router1 := "A", router2 := "B", cost := 2, status := LinkStatus.UP })]
        emptyRouterState 1000).table "B").map RouteEntry.timeout_time = some 0 ∧
    ¬ ((0 : Time) = 1000 + ROUTE_TIMEOUT) := by decide

/-- Claim C4 (amended, proved): for each operational neighbor `N` with link
    cost `c`, `initialize_routing_table` sets the entry for `N` to
    `cost = c`, `next_hop = N`, `status = VALID`, `last_update_time = now`,
    and leaves `timeout_time` at 0 (not `now + ROUTE_TIMEOUT`). -/
theorem init_neighbor_entry (selfId : String) (allRouters : List String)
    (nbrs : List (String × Link)) (s : RouterState) (now : Time)
    (hn : (nbrs.map Prod.fst).Nodup) (N : String) (link : Link)
    (hmem : (N, link) ∈ nbrs) (hup : link.status = LinkStatus.UP)
    (hN : N ∈ allRouters) :
    ∃ e, lookupA (initialize_routing_table selfId allRouters nbrs s now).table N
        = some e ∧
      e.cost = Cost.fin link.cost ∧ e.next_hop = some N ∧
      e.status = RouteStatus.VALID ∧ e.last_update_time = now ∧
      e.timeout_time = 0 := by
  unfold initialize_routing_table
  obtain ⟨l1, l2, hsplit⟩ := List.append_of_mem hmem
  subst hsplit
  rw [List.map_append, List.map_cons] at hn
  have hdisj := (List.nodup_append.mp hn).2.2
  have h1 : N ∉ l1.map Prod.fst := by
    intro hmem1
    exact hdisj hmem1 (List.mem_cons_self _ _)
  have h2 : N ∉ l2.map Prod.fst := by
    have := (List.nodup_append.mp hn).2.1
    exact (List.nodup_cons.mp this).1
  rw [List.foldl_append, List.foldl_cons]
  rw [nbrFold_lookup_not_mem now l2 _ N h2]
  have hbase : lookupA ((l1.foldl (initNbrStep now)
      (allRouters.foldl (initStep selfId now) s))).table N
      = some (initEntry selfId N now) := by
    rw [nbrFold_lookup_not_mem now l1 _ N h1]
    exact initFold_lookup_mem selfId now allRouters s N hN
  rw [initNbrStep_lookup_self now _ N link hup _ hbase]
  refine ⟨_, rfl, rfl, rfl, rfl, rfl, ?_⟩
  exact initEntry_timeout selfId N now

/-- Witness for the amended C4 at a concrete input. -/
theorem init_neighbor_entry_witness :
    ∃ e, lookupA (initialize_routing_table "A" ["A", "B"]
        [("B", { router1 := "A", router2 := "B", cost := 2, status := LinkStatus.UP })]
        emptyRouterState 1000).table "B" = some e ∧
      e.cost = Cost.fin 2 ∧ e.next_hop = some "B" ∧
      e.status = RouteStatus.VALID ∧ e.last_update_time = 1000 ∧
      e.timeout_time = 0 :=
  init_neighbor_entry "A" ["A", "B"]
    [("B", { router1 := "A", router2 := "B", cost := 2, status := LinkStatus.UP })]
    emptyRouterState 1000 (by decide) "B"
    { router1 := "A", router2 := "B", cost := 2, status := LinkStatus.UP }
    (by decide) rfl (by decide)

/-! ### Timer-sweep lemmas -/

theorem sweepStep_lookup_other (selfId : String) (now : Time)
    (st : RouterState × Bool) (p : String × RouteEntry) (d : String)
    (hd : ¬ p.1 = d) :
    lookupA ((sweepStep selfId now st p).1).table d = lookupA st.1.table d := by
  unfold sweepStep
  dsimp only
  split
  · rfl
  · split
    · simp [lookupA_setA, hd]
    · split
      · simp [lookupA_setA, hd]
      · rfl

theorem sweepFold_preserve (selfId : String) (now : Time)
    (l : List (String × RouteEntry)) (st : RouterState × Bool)
    (d : String) (e : RouteEntry)
    (hl : ∀ p ∈ l, p.1 = d → p.2 = e)
    (hv : e.status = RouteStatus.VALID) (ht : e.timeout_time = 0)
    (he : lookupA st.1.table d = some e) :
    lookupA ((l.foldl (sweepStep selfId now) st).1).table d = some e := by
  induction l generalizing st with
  | nil => exact he
  | cons p t ih =>
    simp only [List.foldl_cons]
    apply ih _ (fun q hq hqd => hl q (List.mem_cons_of_mem _ hq) hqd)
    by_cases hpd : p.1 = d
    · have hpe : p.2 = e := hl p (List.mem_cons_self _ _) hpd
      unfold sweepStep
      dsimp only
      split
      · exact he
      · rw [if_neg (by rw [hpe, ht]; simp), if_neg (by rw [hpe, hv]; simp)]
        exact he
    · rw [sweepStep_lookup_other selfId now st p d hpd]
      exact he

theorem initNbrStep_timeout (now : Time) (s : RouterState) (nl : String × Link)
    (d : String) (e : RouteEntry) (he : lookupA s.table d = some e) :
    ∃ e2, lookupA (initNbrStep now s nl).table d = some e2 ∧
      e2.timeout_time = e.timeout_time := by
  by_cases hd : nl.1 = d
  · unfold initNbrStep
    dsimp only
    split
    · rw [hd, he]
      exact ⟨_, lookupA_setA_self _ _ _, rfl⟩
    · exact ⟨e, he, rfl⟩
  · rw [initNbrStep_lookup_other now s nl d hd]
    exact ⟨e, he, rfl⟩

theorem nbrFold_timeout_zero (now : Time) (l : List (String × Link))
    (s : RouterState) (d : String) (e : RouteEntry)
    (he : lookupA s.table d = some e) (ht : e.timeout_time = 0) :
    ∃ e2, lookupA ((l.foldl (initNbrStep now) s)).table d = some e2 ∧
      e2.timeout_time = 0 := by
  induction l generalizing s e with
  | nil => exact ⟨e, he, ht⟩
  | cons nl t ih =>
    simp only [List.foldl_cons]
    obtain ⟨e2, he2, ht2⟩ := initNbrStep_timeout now s nl d e he
    exact ih _ e2 he2 (ht2.trans ht)

/-- Claim C10 (confirmed): `check_timeouts` never expires a VALID entry
    whose `timeout_time` is 0 (the entry is left untouched), and
    `initialize_routing_table` leaves `timeout_time = 0` on every entry for
    a destination in `all_routers` — so freshly initialized neighbor routes
    cannot be expired by the timer sweep until a received message sets a
    positive `timeout_time`. -/
theorem check_timeouts_zero_timeout :
    (∀ (selfId : String) (s : RouterState) (now : Time) (d : String)
        (e : RouteEntry), (s.table.map Prod.fst).Nodup →
      lookupA s.table d = some e → e.status = RouteStatus.VALID →
      e.timeout_time = 0 →
      lookupA ((check_timeouts selfId s now).1).table d = some e) ∧
    (∀ (selfId : String) (allRouters : List String)
        (nbrs : List (String × Link)) (s : RouterState) (now : Time)
        (d : String), d ∈ allRouters →
      ∃ e, lookupA (initialize_routing_table selfId allRouters nbrs s now).table d
          = some e ∧ e.timeout_time = 0) := by
  constructor
  · intro selfId s now d e hnodup he hv ht
    unfold check_timeouts
    apply sweepFold_preserve selfId now s.table (s, false) d e _ hv ht he
    intro p hp hpd
    have hmem2 : (d, p.2) ∈ s.table := by
      rw [← hpd, Prod.mk.eta]
      exact hp
    have hl2 := lookupA_of_mem_nodup hnodup hmem2
    rw [hl2] at he
    exact Option.some.inj he
  · intro selfId allRouters nbrs s now d hd
    unfold initialize_routing_table
    exact nbrFold_timeout_zero now nbrs _ d (initEntry selfId d now)
      (initFold_lookup_mem selfId now allRouters s d hd)
      (initEntry_timeout selfId d now)

/-- Witness for C10: a VALID neighbor entry with `timeout_time = 0`
    survives a sweep at a late time, and a fresh initialization leaves
    `timeout_time = 0`. -/
theorem check_timeouts_zero_timeout_witness :
    lookupA ((check_timeouts "A"
        { table := [("B", mkRouteEntry "B" (Cost.fin 2) (some "B") RouteStatus.VALID 3)],
          holdDown := fun _ => none, dvec := fun _ => none } 5000).1).table "B"
      = some (mkRouteEntry "B" (Cost.fin 2) (some "B") RouteStatus.VALID 3) ∧
    (∃ e, lookupA (initialize_routing_table "A" ["A", "B"]
        [("B", { router1 := "A", router2 := "B", cost := 2, status := LinkStatus.UP })]
        emptyRouterState 1000).table "B" = some e ∧ e.timeout_time = 0) :=
  ⟨check_timeouts_zero_timeout.1 "A"
      { table := [("B", mkRouteEntry "B" (Cost.fin 2) (some "B") RouteStatus.VALID 3)],
        holdDown := fun _ => none, dvec := fun _ => none } 5000 "B"
      (mkRouteEntry "B" (Cost.fin 2) (some "B") RouteStatus.VALID 3)
      (by decide) rfl rfl rfl,
   check_timeouts_zero_timeout.2 "A" ["A", "B"]
      [("B", { router1 := "A", router2 := "B", cost := 2, status := LinkStatus.UP })]
      emptyRouterState 1000 "B" (by decide)⟩

/-! ### Self-route invariant lemmas -/

theorem selfOK_congr {s s' : RouterState} (selfId : String)
    (h : lookupA s'.table selfId = lookupA s.table selfId)
    (hs : SelfOK s selfId) : SelfOK s' selfId := by
  unfold SelfOK at hs ⊢
  rw [h]
  exact hs

theorem processDest_selfOK (selfId fromN : String) (ncost : Nat) (now : Time)
    (st : RouterState × Bool) (p : String × Cost)
    (hs : SelfOK st.1 selfId) :
    SelfOK ((processDest selfId fromN ncost now st p).1) selfId := by
  obtain ⟨dest, adv⟩ := p
  by_cases hd : dest = selfId
  · subst hd
    unfold processDest
    dsimp only
    rw [if_pos rfl]
    exact hs
  · exact selfOK_congr selfId
      (processDest_other selfId fromN ncost now st dest adv selfId hd).1 hs

theorem refresh_selfOK (s : RouterState) (n : String) (now : Time)
    (selfId : String) (hs : SelfOK s selfId) :
    SelfOK (refreshNeighborRow s n now) selfId := by
  by_cases hn : n = selfId
  · subst hn
    unfold SelfOK at hs ⊢
    rw [refresh_lookup_self]
    cases hle : lookupA s.table n with
    | none => rw [hle] at hs; exact hs
    | some e =>
      rw [hle] at hs
      exact hs
  · exact selfOK_congr selfId (refresh_lookup_ne s n now selfId hn) hs

theorem foldPD_selfOK (selfId fromN : String) (ncost : Nat) (now : Time)
    (v : List (String × Cost)) (st : RouterState × Bool)
    (hs : SelfOK st.1 selfId) :
    SelfOK ((v.foldl (processDest selfId fromN ncost now) st).1) selfId := by
  induction v generalizing st with
  | nil => exact hs
  | cons p t ih =>
    simp only [List.foldl_cons]
    exact ih _ (processDest_selfOK selfId fromN ncost now st p hs)

theorem update_selfOK (selfId : String) (nbrs : List (String × Link))
    (s : RouterState) (fromN : String) (v : List (String × Cost)) (now : Time)
    (hs : SelfOK s selfId) :
    SelfOK ((update_routing_table selfId nbrs s fromN v now).1) selfId := by
  unfold update_routing_table
  cases hlk : lookupA nbrs fromN with
  | none => exact hs
  | some link =>
    simp only [hlk]
    exact foldPD_selfOK selfId fromN link.cost now v
      (refreshNeighborRow s fromN now, false)
      (refresh_selfOK s fromN now selfId hs)

theorem sweepStep_selfOK (selfId : String) (now : Time)
    (st : RouterState × Bool) (p : String × RouteEntry)
    (hs : SelfOK st.1 selfId) :
    SelfOK ((sweepStep selfId now st p).1) selfId := by
  by_cases hd : p.1 = selfId
  · unfold sweepStep
    dsimp only
    rw [if_pos hd]
    exact hs
  · exact selfOK_congr selfId (sweepStep_lookup_other selfId now st p selfId hd) hs

theorem failStep_lookup_other (selfId neighborId : String) (now : Time)
    (st : RouterState × Bool) (p : String × RouteEntry) (d : String)
    (hd : ¬ p.1 = d) :
    lookupA ((failStep selfId neighborId now st p).1).table d
      = lookupA st.1.table d := by
  unfold failStep
  dsimp only
  split
  · simp [lookupA_setA, hd]
  · rfl

theorem failStep_selfOK (selfId neighborId : String) (now : Time)
    (st : RouterState × Bool) (p : String × RouteEntry)
    (hs : SelfOK st.1 selfId) :
    SelfOK ((failStep selfId neighborId now st p).1) selfId := by
  by_cases hd : p.1 = selfId
  · unfold failStep
    dsimp only
    split
    · next h => exact absurd hd h.2
    · exact hs
  · exact selfOK_congr selfId
      (failStep_lookup_other selfId neighborId now st p selfId hd) hs

/-- Claim C8 (confirmed): the self-route invariant `cost = 0, next_hop =
    self, status = VALID` is established by `initialize_routing_table`
    (when the router is in `all_routers` and is not its own neighbor) and
    preserved by message processing, the timer sweep, link-failure
    handling, and link-recovery handling (for a recovering neighbor other
    than the router itself). -/
theorem self_route_invariant :
    (∀ (selfId : String) (allRouters : List String)
        (nbrs : List (String × Link)) (s : RouterState) (now : Time),
      selfId ∈ allRouters → (∀ p ∈ nbrs, p.1 ≠ selfId) →
      SelfOK (initialize_routing_table selfId allRouters nbrs s now) selfId) ∧
    (∀ (selfId : String) (nbrs : List (String × Link)) (s : RouterState)
        (msg : Message) (now : Time), SelfOK s selfId →
      SelfOK ((process_message selfId nbrs s msg now).1) selfId) ∧
    (∀ (selfId : String) (s : RouterState) (now : Time), SelfOK s selfId →
      SelfOK ((check_timeouts selfId s now).1) selfId) ∧
    (∀ (selfId : String) (nbrs : List (String × Link)) (s : RouterState)
        (neighborId : String) (now : Time), SelfOK s selfId →
      SelfOK ((handle_link_failure selfId nbrs s neighborId now).1) selfId) ∧
    (∀ (selfId : String) (nbrs : List (String × Link)) (s : RouterState)
        (neighborId : String) (newCost : Nat) (now : Time),
      neighborId ≠ selfId → SelfOK s selfId →
      SelfOK ((handle_link_recovery selfId nbrs s neighborId newCost now).1) selfId) := by
  refine ⟨?_, ?_, ?_, ?_, ?_⟩
  · intro selfId allRouters nbrs s now hself hnb
    unfold initialize_routing_table
    have hbase : lookupA ((allRouters.foldl (initStep selfId now) s)).table selfId
        = some (initEntry selfId selfId now) :=
      initFold_lookup_mem selfId now allRouters s selfId hself
    have hnm : selfId ∉ nbrs.map Prod.fst := by
      intro hmem
      obtain ⟨p, hp, hpe⟩ := List.mem_map.mp hmem
      exact hnb p hp hpe
    have hfin : lookupA ((nbrs.foldl (initNbrStep now)
        (allRouters.foldl (initStep selfId now) s))).table selfId
        = some (initEntry selfId selfId now) := by
      rw [nbrFold_lookup_not_mem now nbrs _ selfId hnm]
      exact hbase
    unfold SelfOK
    rw [hfin]
    unfold initEntry
    rw [if_pos rfl]
    exact ⟨rfl, rfl, rfl⟩
  · intro selfId nbrs s msg now hs
    unfold process_message
    cases hlk : lookupA nbrs msg.source with
    | none => exact hs
    | some link =>
      simp only [hlk]
      split
      · exact update_selfOK selfId nbrs s msg.source msg.distance_vector now hs
      · exact hs
  · intro selfId s now hs
    unfold check_timeouts
    have : ∀ (l : List (String × RouteEntry)) (st : RouterState × Bool),
        SelfOK st.1 selfId →
        SelfOK ((l.foldl (sweepStep selfId now) st).1) selfId := by
      intro l
      induction l with
      | nil => intro st hst; exact hst
      | cons p t ih =>
        intro st hst
        simp only [List.foldl_cons]
        exact ih _ (sweepStep_selfOK selfId now st p hst)
    exact this s.table (s, false) hs
  · intro selfId nbrs s neighborId now hs
    unfold handle_link_failure
    cases hlk : lookupA nbrs neighborId with
    | none => exact hs
    | some link =>
      have : ∀ (l : List (String × RouteEntry)) (st : RouterState × Bool),
          SelfOK st.1 selfId →
          SelfOK ((l.foldl (failStep selfId neighborId now) st).1) selfId := by
        intro l
        induction l with
        | nil => intro st hst; exact hst
        | cons p t ih =>
          intro st hst
          simp only [List.foldl_cons]
          exact ih _ (failStep_selfOK selfId neighborId now st p hst)
      exact this s.table (s, false) hs
  · intro selfId nbrs s neighborId newCost now hne hs
    unfold handle_link_recovery
    cases hlk : lookupA nbrs neighborId with
    | none => exact hs
    | some link =>
      cases hte : lookupA s.table neighborId with
      | none => exact hs
      | some e =>
        simp only [hte]
        refine selfOK_congr selfId ?_ hs
        simp [lookupA_setA, hne]

/-- Witness for C8: the invariant holds concretely for router `"A"` with
    neighbor `"B"` across all five operations. -/
theorem self_route_invariant_witness :
    SelfOK (initialize_routing_table "A" ["A", "B"]
      [("B", { router1 := "A", router2 := "B", cost := 2, status := LinkStatus.UP })]
      emptyRouterState 7) "A" ∧
    SelfOK ((process_message "A"
      [("B", { router1 := "A", router2 := "B", cost := 2, status := LinkStatus.UP })]
      { table := [("A", mkRouteEntry "A" (Cost.fin 0) (some "A") RouteStatus.VALID 0)],
        holdDown := fun _ => none, dvec := fun _ => none }
      { source := "B", destination := "A", distance_vector := [("C", Cost.fin 1)] }
      9).1) "A" ∧
    SelfOK ((check_timeouts "A"
      { table := [("A", mkRouteEntry "A" (Cost.fin 0) (some "A") RouteStatus.VALID 0)],
        holdDown := fun _ => none, dvec := fun _ => none } 9).1) "A" ∧
    SelfOK ((handle_link_failure "A"
      [("B", { router1 := "A", router2 := "B", cost := 2, status := LinkStatus.UP })]
      { table := [("A", mkRouteEntry "A" (Cost.fin 0) (some "A") RouteStatus.VALID 0)],
        holdDown := fun _ => none, dvec := fun _ => none } "B" 9).1) "A" ∧
    SelfOK ((handle_link_recovery "A"
      [("B", { router1 := "A", router2 := "B", cost := 2, status := LinkStatus.UP })]
      { table := [("A", mkRouteEntry "A" (Cost.fin 0) (some "A") RouteStatus.VALID 0)],
        holdDown := fun _ => none, dvec := fun _ => none } "B" 4 9).1) "A" :=
  ⟨self_route_invariant.1 "A" ["A", "B"]
      [("B", { router1 := "A", router2 := "B", cost := 2, status := LinkStatus.UP })]
      emptyRouterState 7 (by decide) (by decide),
   self_route_invariant.2.1 "A"
      [("B", { router1 := "A", router2 := "B", cost := 2, status := LinkStatus.UP })]
      { table := [("A", mkRouteEntry "A" (Cost.fin 0) (some "A") RouteStatus.VALID 0)],
        holdDown := fun _ => none, dvec := fun _ => none }
      { source := "B", destination := "A", distance_vector := [("C", Cost.fin 1)] }
      9 ⟨rfl, rfl, rfl⟩,
   self_route_invariant.2.2.1 "A"
      { table := [("A", mkRouteEntry "A" (Cost.fin 0) (some "A") RouteStatus.VALID 0)],
        holdDown := fun _ => none, dvec := fun _ => none } 9 ⟨rfl, rfl, rfl⟩,
   self_route_invariant.2.2.2.1 "A"
      [("B", { router1 := "A", router2 := "B", cost := 2, status := LinkStatus.UP })]
      { table := [("A", mkRouteEntry "A" (Cost.fin 0) (some "A") RouteStatus.VALID 0)],
        holdDown := fun _ => none, dvec := fun _ => none } "B" 9 ⟨rfl, rfl, rfl⟩,
   self_route_invariant.2.2.2.2 "A"
      [("B", { router1 := "A", router2 := "B", cost := 2, status := LinkStatus.UP })]
      { table := [("A", mkRouteEntry "A" (Cost.fin 0) (some "A") RouteStatus.VALID 0)],
        holdDown := fun _ => none, dvec := fun _ => none } "B" 4 9 (by decide)
      ⟨rfl, rfl, rfl⟩⟩

/-! ### Advertisement-construction lemmas -/

theorem lookupA_append_single_ne {α : Type} (t : List (String × α))
    (k d : String) (c : α) (hd : ¬ k = d) :
    lookupA (t ++ [(k, c)]) d = lookupA t d := by
  cases h : lookupA t d with
  | some v => exact lookupA_append_some _ h
  | none =>
    rw [lookupA_append_none _ h]
    simp [lookupA, hd]

theorem dvStep_vector_some (selfId nid : String) (now : Time) (acc : DVResult)
    (it : String × RouteEntry) (d : String) (c : Cost)
    (h : lookupA acc.vector d = some c) :
    lookupA (dvStep selfId nid now acc it).vector d = some c := by
  unfold dvStep
  dsimp only
  split
  · exact h
  · cases hhd : acc.holdDown it.1 with
    | some w =>
      simp only [hhd]
      split
      · exact h
      · exact lookupA_append_some _ h
    | none =>
      simp only [hhd]
      exact lookupA_append_some _ h

theorem dvStep_vector_other (selfId nid : String) (now : Time) (acc : DVResult)
    (it : String × RouteEntry) (d : String) (hd : ¬ it.1 = d) :
    lookupA (dvStep selfId nid now acc it).vector d = lookupA acc.vector d := by
  unfold dvStep
  dsimp only
  split
  · rfl
  · cases hhd : acc.holdDown it.1 with
    | some w =>
      simp only [hhd]
      split
      · rfl
      · exact lookupA_append_single_ne _ _ _ _ hd
    | none =>
      simp only [hhd]
      exact lookupA_append_single_ne _ _ _ _ hd

theorem dvStep_holdDown_other (selfId nid : String) (now : Time)
    (acc : DVResult) (it : String × RouteEntry) (d : String)
    (hd : ¬ it.1 = d) :
    (dvStep selfId nid now acc it).holdDown d = acc.holdDown d := by
  unfold dvStep
  dsimp only
  split
  · rfl
  · cases hhd : acc.holdDown it.1 with
    | some w =>
      simp only [hhd]
      split
      · rfl
      · show (if d = it.1 then none else acc.holdDown d) = acc.holdDown d
        exact if_neg (fun h => hd h.symm)
    | none => rfl

theorem dvStep_poison_mono (selfId nid : String) (now : Time)
    (acc : DVResult) (it : String × RouteEntry) (x : String)
    (h : x ∈ acc.poison) : x ∈ (dvStep selfId nid now acc it).poison := by
  unfold dvStep
  dsimp only
  split
  · exact h
  · have hpc : x ∈ (if it.2.next_hop = some nid ∧ it.1 ≠ selfId then
        (Cost.inf, acc.poison ++ [it.1]) else (it.2.cost, acc.poison)).2 := by
      split
      · exact List.mem_append_left _ h
      · exact h
    cases hhd : acc.holdDown it.1 with
    | some w =>
      simp only [hhd]
      split
      · exact hpc
      · exact hpc
    | none => exact hpc

theorem dvFold_vector_some (selfId nid : String) (now : Time)
    (l : List (String × RouteEntry)) (acc : DVResult) (d : String) (c : Cost)
    (h : lookupA acc.vector d = some c) :
    lookupA ((l.foldl (dvStep selfId nid now) acc)).vector d = some c := by
  induction l generalizing acc with
  | nil => exact h
  | cons p t ih =>
    simp only [List.foldl_cons]
    exact ih _ (dvStep_vector_some selfId nid now acc p d c h)

theorem dvFold_vector_other (selfId nid : String) (now : Time)
    (l : List (String × RouteEntry)) (acc : DVResult) (d : String)
    (hd : d ∉ l.map Prod.fst) :
    lookupA ((l.foldl (dvStep selfId nid now) acc)).vector d
      = lookupA acc.vector d := by
  induction l generalizing acc with
  | nil => rfl
  | cons p t ih =>
    simp only [List.map_cons, List.mem_cons] at hd
    push_neg at hd
    simp only [List.foldl_cons]
    rw [ih _ hd.2, dvStep_vector_other selfId nid now acc p d
      (fun hh => hd.1 hh.symm)]

theorem dvFold_holdDown_other (selfId nid : String) (now : Time)
    (l : List (String × RouteEntry)) (acc : DVResult) (d : String)
    (hd : d ∉ l.map Prod.fst) :
    ((l.foldl (dvStep selfId nid now) acc)).holdDown d = acc.holdDown d := by
  induction l generalizing acc with
  | nil => rfl
  | cons p t ih =>
    simp only [List.map_cons, List.mem_cons] at hd
    push_neg at hd
    simp only [List.foldl_cons]
    rw [ih _ hd.2, dvStep_holdDown_other selfId nid now acc p d
      (fun hh => hd.1 hh.symm)]

theorem dvFold_poison_mono (selfId nid : String) (now : Time)
    (l : List (String × RouteEntry)) (acc : DVResult) (x : String)
    (h : x ∈ acc.poison) :
    x ∈ ((l.foldl (dvStep selfId nid now) acc)).poison := by
  induction l generalizing acc with
  | nil => exact h
  | cons p t ih =>
    simp only [List.foldl_cons]
    exact ih _ (dvStep_poison_mono selfId nid now acc p x h)

theorem dvStep_poisoned (selfId nid : String) (now : Time) (acc : DVResult)
    (d : String) (e : RouteEntry) (hnh : e.next_hop = some nid)
    (hds : d ≠ selfId) (hst : e.status ≠ RouteStatus.GARBAGE) :
    d ∈ (dvStep selfId nid now acc (d, e)).poison ∧
    (∀ exp, acc.holdDown d = some exp → now < exp →
      (dvStep selfId nid now acc (d, e)).vector = acc.vector) ∧
    ((∀ exp, acc.holdDown d = some exp → ¬ now < exp) →
      (dvStep selfId nid now acc (d, e)).vector
        = acc.vector ++ [(d, Cost.inf)]) := by
  unfold dvStep
  dsimp only
  rw [if_neg hst]
  have hcond : e.next_hop = some nid ∧ d ≠ selfId := ⟨hnh, hds⟩
  rw [if_pos hcond]
  cases hhd : acc.holdDown d with
  | some exp =>
    simp only [hhd]
    split
    · next hlt =>
      refine ⟨List.mem_append_right _ (List.mem_singleton.mpr rfl), ?_, ?_⟩
      · intro exp2 hexp2 hlt2
        rfl
      · intro hall
        exact absurd hlt (hall exp rfl)
    · next hlt =>
      refine ⟨List.mem_append_right _ (List.mem_singleton.mpr rfl), ?_, ?_⟩
      · intro exp2 hexp2 hlt2
        rw [Option.some.inj hexp2] at hlt
        exact absurd hlt2 hlt
      · intro hall
        rfl
  | none =>
    simp only [hhd]
    refine ⟨List.mem_append_right _ (List.mem_singleton.mpr rfl), ?_, ?_⟩
    · intro exp2 hexp2 hlt2
      exact absurd hexp2 (by simp)
    · intro hall
      trivial

/-- Claim C2 (counterexample): a GARBAGE entry whose `next_hop` is the
    target neighbor is omitted from the advertisement entirely — it is
    neither advertised at `inf` nor a member of the poison set. -/
theorem advert_poison_cex :
    lookupA (get_distance_vector_for_neighbor "A"
      { table := [("X", mkRouteEntry "X" Cost.inf (some "B") RouteStatus.GARBAGE 0)],
        holdDown := fun _ => none, dvec := fun _ => none } "B" 10).vector "X" = none ∧
    "X" ∉ (get_distance_vector_for_neighbor "A"
      { table := [("X", mkRouteEntry "X" Cost.inf (some "B") RouteStatus.GARBAGE 0)],
        holdDown := fun _ => none, dvec := fun _ => none } "B" 10).poison := by decide

/-- Claim C2 (amended, proved): in the advertisement built for neighbor
    `N`, every destination `D ≠ self` whose entry has `next_hop = N` and
    status other than GARBAGE is a member of the poison set; it is
    advertised in the vector at `inf` unless it is suppressed by an
    unexpired hold-down, in which case it is absent from the vector
    (though still in the poison set). -/
theorem advert_poison_reverse (selfId nid : String) (s : RouterState)
    (now : Time) (hnodup : (s.table.map Prod.fst).Nodup)
    (d : String) (e : RouteEntry) (hmem : (d, e) ∈ s.table)
    (hnh : e.next_hop = some nid) (hds : d ≠ selfId)
    (hst : e.status ≠ RouteStatus.GARBAGE) :
    d ∈ (get_distance_vector_for_neighbor selfId s nid now).poison ∧
    (∀ exp, s.holdDown d = some exp → now < exp →
      lookupA (get_distance_vector_for_neighbor selfId s nid now).vector d
        = none) ∧
    ((∀ exp, s.holdDown d = some exp → ¬ now < exp) →
      lookupA (get_distance_vector_for_neighbor selfId s nid now).vector d
        = some Cost.inf) := by
  unfold get_distance_vector_for_neighbor
  obtain ⟨t1, t2, hsplit⟩ := List.append_of_mem hmem
  rw [hsplit] at hnodup ⊢
  rw [List.map_append, List.map_cons] at hnodup
  have hd1 : d ∉ t1.map Prod.fst := fun hm =>
    (List.nodup_append.mp hnodup).2.2 hm (List.mem_cons_self _ _)
  have hd2 : d ∉ t2.map Prod.fst :=
    (List.nodup_cons.mp (List.nodup_append.mp hnodup).2.1).1
  rw [List.foldl_append, List.foldl_cons]
  have hvec1 : lookupA ((t1.foldl (dvStep selfId nid now)
      ⟨[], [], s.holdDown⟩)).vector d = none := by
    rw [dvFold_vector_other selfId nid now t1 _ d hd1]
    rfl
  have hhd1 : ((t1.foldl (dvStep selfId nid now)
      ⟨[], [], s.holdDown⟩)).holdDown d = s.holdDown d :=
    dvFold_holdDown_other selfId nid now t1 _ d hd1
  obtain ⟨hp, hv1, hv2⟩ := dvStep_poisoned selfId nid now
    (t1.foldl (dvStep selfId nid now) ⟨[], [], s.holdDown⟩) d e hnh hds hst
  refine ⟨?_, ?_, ?_⟩
  · exact dvFold_poison_mono selfId nid now t2 _ d hp
  · intro exp hexp hlt
    have hveq := hv1 exp (by rw [hhd1]; exact hexp) hlt
    rw [dvFold_vector_other selfId nid now t2 _ d hd2, hveq, hvec1]
  · intro hall
    have hveq := hv2 (fun exp hexp => hall exp (by rw [← hhd1]; exact hexp))
    have hstep : lookupA ((dvStep selfId nid now
        (t1.foldl (dvStep selfId nid now) ⟨[], [], s.holdDown⟩) (d, e))).vector d
        = some Cost.inf := by
      rw [hveq, lookupA_append_none _ hvec1]
      simp [lookupA]
    exact dvFold_vector_some selfId nid now t2 _ d Cost.inf hstep

/-- Witness for the amended C2: destination `"D"` routed via `"B"` is
    poison-reversed toward `"B"` and advertised at `inf`. -/
theorem advert_poison_reverse_witness :
    "D" ∈ (get_distance_vector_for_neighbor "A"
      { table := [("D", mkRouteEntry "D" (Cost.fin 5) (some "B") RouteStatus.VALID 3)],
        holdDown := fun _ => none, dvec := fun _ => none } "B" 10).poison ∧
    (∀ exp, (none : Option Time) = some exp → 10 < exp →
      lookupA (get_distance_vector_for_neighbor "A"
        { table := [("D", mkRouteEntry "D" (Cost.fin 5) (some "B") RouteStatus.VALID 3)],
          holdDown := fun _ => none, dvec := fun _ => none } "B" 10).vector "D"
        = none) ∧
    ((∀ exp, (none : Option Time) = some exp → ¬ 10 < exp) →
      lookupA (get_distance_vector_for_neighbor "A"
        { table := [("D", mkRouteEntry "D" (Cost.fin 5) (some "B") RouteStatus.VALID 3)],
          holdDown := fun _ => none, dvec := fun _ => none } "B" 10).vector "D"
        = some Cost.inf) :=
  advert_poison_reverse "A" "B"
    { table := [("D", mkRouteEntry "D" (Cost.fin 5) (some "B") RouteStatus.VALID 3)],
      holdDown := fun _ => none, dvec := fun _ => none } 10
    (by decide) "D" (mkRouteEntry "D" (Cost.fin 5) (some "B") RouteStatus.VALID 3)
    (by decide) rfl (by decide) (by decide)

/-! ### Network restart lemmas -/

theorem lookupA_map_keyed {α β : Type} (l : List (String × α))
    (f : String → α → β) (k : String) :
    lookupA (l.map (fun p => (p.1, f p.1 p.2))) k
      = (lookupA l k).map (f k) := by
  induction l with
  | nil => rfl
  | cons p t ih =>
    obtain ⟨a, b⟩ := p
    simp only [List.map_cons, lookupA]
    by_cases h : a = k
    · subst h
      simp
    · simp [h, ih]

theorem nbrFold_table_congr (now : Time) (l : List (String × Link))
    (s1 s2 : RouterState)
    (h : ∀ d, lookupA s1.table d = lookupA s2.table d) :
    ∀ d, lookupA ((l.foldl (initNbrStep now) s1)).table d
        = lookupA ((l.foldl (initNbrStep now) s2)).table d := by
  induction l generalizing s1 s2 with
  | nil => exact h
  | cons p t ih =>
    simp only [List.foldl_cons]
    apply ih
    intro d
    unfold initNbrStep
    dsimp only
    by_cases hup : p.2.status = LinkStatus.UP
    · rw [if_pos hup, if_pos hup, h p.1]
      cases h2 : lookupA s2.table p.1 with
      | some e =>
        simp only [h2]
        rw [lookupA_setA, lookupA_setA, h d]
      | none => exact h d
    · rw [if_neg hup, if_neg hup]
      exact h d

theorem init_table_start_irrel (selfId : String) (allRouters : List String)
    (nbrs : List (String × Link)) (s : RouterState) (now : Time)
    (hkeys : ∀ d e, lookupA s.table d = some e → d ∈ allRouters) :
    ∀ d, lookupA (initialize_routing_table selfId allRouters nbrs s now).table d
        = lookupA (initialize_routing_table selfId allRouters nbrs
            emptyRouterState now).table d := by
  unfold initialize_routing_table
  apply nbrFold_table_congr
  intro d
  by_cases hd : d ∈ allRouters
  · rw [initFold_lookup_mem selfId now allRouters s d hd,
        initFold_lookup_mem selfId now allRouters emptyRouterState d hd]
  · rw [initFold_lookup_not_mem selfId now allRouters s d hd,
        initFold_lookup_not_mem selfId now allRouters emptyRouterState d hd]
    cases hle : lookupA s.table d with
    | none => rfl
    | some e => exact absurd (hkeys d e hle) hd

/-- Claim C5 (counterexample): `restart_simulation` re-initializes the
    routing tables before forcing the links UP, so with the A-B link DOWN
    at restart time router `"A"`'s entry for `"B"` comes out INVALID while
    a fresh initialization with the link UP makes it VALID. -/
theorem restart_not_fresh_cex :
    (Option.map RouteEntry.status
      ((lookupA (restart_simulation
        { routerIds := ["A", "B"],
          routerStates := [("A", emptyRouterState), ("B", emptyRouterState)],
          links := [{ router1 := "A", router2 := "B", cost := 2, status := LinkStatus.DOWN }],
          stats := {} } 50).routerStates "A").bind
        (fun rs => lookupA rs.table "B")))
      = some RouteStatus.INVALID ∧
    (Option.map RouteEntry.status
      (lookupA (initialize_routing_table "A" ["A", "B"]
        (neighborsOf [{ router1 := "A", router2 := "B", cost := 2, status := LinkStatus.UP }] "A")
        emptyRouterState 50).table "B"))
      = some RouteStatus.VALID := by decide

/-- Claim C5 (amended, proved): immediately after `restart_simulation`
    returns, the stats are a fresh `NetworkStats` with periodic updates
    enabled and every link's status is UP; each router's routing table
    equals (pointwise) the table produced by a fresh initialization of the
    same topology *with the pre-restart link statuses* — the links are
    forced UP only after the tables are rebuilt. -/
theorem restart_simulation_spec (net : Network) (now : Time)
    (rid : String) (rs : RouterState)
    (hr : lookupA net.routerStates rid = some rs)
    (hkeys : ∀ d e, lookupA rs.table d = some e → d ∈ net.routerIds) :
    (restart_simulation net now).stats
      = { periodic_updates_enabled := true } ∧
    (∀ l ∈ (restart_simulation net now).links, l.status = LinkStatus.UP) ∧
    ∃ rs2, lookupA (restart_simulation net now).routerStates rid = some rs2 ∧
      ∀ d, lookupA rs2.table d = lookupA (initialize_routing_table rid
        net.routerIds (neighborsOf net.links rid) emptyRouterState now).table d := by
  refine ⟨rfl, ?_, ?_⟩
  · intro l hl
    unfold restart_simulation initialize_routing_tables at hl
    dsimp only at hl
    obtain ⟨l0, _, heq⟩ := List.mem_map.mp hl
    rw [← heq]
  · unfold restart_simulation initialize_routing_tables
    dsimp only
    rw [lookupA_map_keyed net.routerStates
      (fun r st => initialize_routing_table r net.routerIds
        (neighborsOf net.links r) st now) rid, hr]
    refine ⟨_, rfl, ?_⟩
    exact init_table_start_irrel rid net.routerIds
      (neighborsOf net.links rid) rs now hkeys

/-- Witness for the amended C5 on a concrete two-router network with the
    link DOWN at restart time. -/
theorem restart_simulation_spec_witness :
    (restart_simulation
      { routerIds := ["A", "B"],
        routerStates := [("A", emptyRouterState), ("B", emptyRouterState)],
        links := [{ router1 := "A", router2 := "B", cost := 2, status := LinkStatus.DOWN }],
        stats := {} } 50).stats = { periodic_updates_enabled := true } ∧
    (∀ l ∈ (restart_simulation
      { routerIds := ["A", "B"],
        routerStates := [("A", emptyRouterState), ("B", emptyRouterState)],
        links := [{ router1 := "A", router2 := "B", cost := 2, status := LinkStatus.DOWN }],
        stats := {} } 50).links, l.status = LinkStatus.UP) ∧
    ∃ rs2, lookupA (restart_simulation
      { routerIds := ["A", "B"],
        routerStates := [("A", emptyRouterState), ("B", emptyRouterState)],
        links := [{ router1 := "A", router2 := "B", cost := 2, status := LinkStatus.DOWN }],
        stats := {} } 50).routerStates "A" = some rs2 ∧
      ∀ d, lookupA rs2.table d = lookupA (initialize_routing_table "A" ["A", "B"]
        (neighborsOf [{ router1 := "A", router2 := "B", cost := 2, status := LinkStatus.DOWN }] "A")
        emptyRouterState 50).table d :=
  restart_simulation_spec
    { routerIds := ["A", "B"],
      routerStates := [("A", emptyRouterState), ("B", emptyRouterState)],
      links := [{ router1 := "A", router2 := "B", cost := 2, status := LinkStatus.DOWN }],
      stats := {} } 50 "A" emptyRouterState rfl
    (by intro d e h; simp [emptyRouterState, lookupA] at h)
